import Mathlib

/-!
# Verification of the Application Peer Synchronization Subsystem (emc_node)

Shallow embedding of the syncer orchestrator (`application/syncer.go`), the
`Application` record (`application/application.go`) and the `AppStatus` wire
message (`application/proto/syncer.proto`), together with the spec-level models
of the collaborators whose implementations are not in the source tree
(PeerMap, the StatusSubscriber filter of SyncAppPeerClient).

Machine integers: the Go `uint64` fields are only copied and compared here,
never overflowed, so they are embedded as `Nat`.  The `float32` field
`average_power` is only copied verbatim (no arithmetic), so it is embedded as
an opaque `Int` stand-in.
-/

namespace EmcNode

/-- The `AppStatus` wire message from `application/proto/syncer.proto`
(proto3).  Field order and names follow the proto file; unset fields take the
proto3 zero values (`""` / `0`). -/
structure AppStatus where
  name : String
  startupTime : Nat
  uptime : Nat
  guageHeight : Nat
  guageMax : Nat
  relay : String
  nodeId : String
  addr : String
  appOrigin : String
  modelHash : String
  mac : String
  memInfo : String
  cpuInfo : String
  averagePower : Int
  gpuInfo : String
  version : String
deriving Repr, DecidableEq

/-- The `Application` struct from `application/application.go`.  `peer.ID` is
an opaque string. -/
structure Application where
  name : String
  tag : String
  version : String
  peerID : String
  ipAddr : String
  appOrigin : String
  modelHash : String
  mac : String
  memInfo : String
  cpuInfo : String
  startupTime : Nat
  uptime : Nat
  guageHeight : Nat
  guageMax : Nat
deriving Repr, DecidableEq

/-- Method `Application.Copy` from `application/application.go`: builds a new
`Application` from a composite literal listing only `Name`, `Tag`, `Version`,
`PeerID`, `StartupTime`, `Uptime`, `GuageHeight`, `GuageMax`, `IpAddr` and
`AppOrigin`; the remaining fields (`ModelHash`, `Mac`, `MemInfo`, `CpuInfo`)
get the Go zero value `""`. -/
def Application.copy (a : Application) : Application :=
  { name := a.name
    tag := a.tag
    version := a.version
    peerID := a.peerID
    startupTime := a.startupTime
    uptime := a.uptime
    guageHeight := a.guageHeight
    guageMax := a.guageMax
    ipAddr := a.ipAddr
    appOrigin := a.appOrigin
    modelHash := ""
    mac := ""
    memInfo := ""
    cpuInfo := "" }

/-- The endpoint application record as read at the call sites of
`doPublishAppStatus` (`s.applicationStore.GetEndpointApplication()`): the
fields of `Application` that the publisher reads, together with `gpuInfo` and
`averagePower`, which the publish site reads although the `Application` struct
version in the tree lacks them (spec §6 lists both as wire fields). -/
structure EndpointApplication where
  name : String
  peerID : String
  uptime : Nat
  startupTime : Nat
  appOrigin : String
  mac : String
  cpuInfo : String
  gpuInfo : String
  memInfo : String
  modelHash : String
  averagePower : Int
  version : String
  guageHeight : Nat
  guageMax : Nat
deriving Repr, DecidableEq

/-- Method `syncer.doPublishAppStatus` from `application/syncer.go`: reads the first
host listening address (or `""` when there is none) and builds the published
`AppStatus` composite literal exactly as the source does.  `Relay` is set to
the literal `""`; `GuageHeight` and `GuageMax` are not mentioned in the
literal, so they get the proto3 zero value `0`. -/
def doPublishAppStatus (hostAddrs : List String) (app : EndpointApplication) :
    AppStatus :=
  let addr := match hostAddrs with
    | [] => ""
    | a :: _ => a
  { name := app.name
    nodeId := app.peerID
    uptime := app.uptime
    startupTime := app.startupTime
    relay := ""
    addr := addr
    appOrigin := app.appOrigin
    mac := app.mac
    cpuInfo := app.cpuInfo
    gpuInfo := app.gpuInfo
    memInfo := app.memInfo
    modelHash := app.modelHash
    averagePower := app.averagePower
    version := app.version
    guageHeight := 0
    guageMax := 0 }

/-- Shutdown bookkeeping for `syncer.Close`: whether `close(s.newStatusCh)`
ran, whether `s.syncAppPeerService.Close()` was invoked, and whether
`s.syncAppPeerClient.Close()` was invoked. -/
structure ShutdownState where
  chClosed : Bool
  serviceCloseCalled : Bool
  clientCloseCalled : Bool
deriving Repr, DecidableEq

/-- Method `syncer.Close` from `application/syncer.go`, parameterized by the error
the collaborator `syncAppPeerService.Close()` returns: it closes
`newStatusCh`, calls the service close, and on a non-nil error returns that
error immediately — skipping `syncAppPeerClient.Close()`; otherwise it closes
the client and returns nil. -/
def syncerClose (serviceCloseErr : Option String) :
    ShutdownState × Option String :=
  match serviceCloseErr with
  | some e => (⟨true, true, false⟩, some e)
  | none => (⟨true, true, true⟩, none)

/-- State of the unbuffered `newStatusCh` channel (`make(chan struct\x7b\x7d)` in
`NewSyncer`): open with or without a ready receiver, or closed by `Close`. -/
inductive ChanState where
  | opened (receiverReady : Bool)
  | closed
deriving Repr, DecidableEq

/-- Outcome of one call to `notifyNewStatusEvent`. -/
inductive SendOutcome where
  | delivered
  | dropped
  | panicked
deriving Repr, DecidableEq

/-- Capacity of `newStatusCh`: `NewSyncer` allocates it with
`make(chan struct\x7b\x7d)`, i.e. unbuffered. -/
def newStatusChCapacity : Nat := 0

/-- Method `syncer.notifyNewStatusEvent` from `application/syncer.go`, under Go
channel semantics for `select \x7b case ch <- v: default: \x7d` on an unbuffered
channel: with a ready receiver the send proceeds; with no ready receiver the
`default` branch is taken and the signal is dropped; on a closed channel the
send case is ready, is selected, and panics (Go spec: a send on a closed
channel proceeds by panicking). -/
def notifyNewStatusEvent : ChanState → SendOutcome
  | .opened true => .delivered
  | .opened false => .dropped
  | .closed => .panicked

/-- Modelled from the spec: the `AppPeer` record (§3) — the implementation of
`AppPeer` is not under the source tree (only `syncer.go` uses it).  Keyed by
the peer identifier; carries the status fields the claims mention. -/
structure AppPeer where
  id : String
  name : String
  guageHeight : Nat
  guageMax : Nat
  relay : String
  addr : String
deriving Repr, DecidableEq

/-- Modelled from the spec: `PeerMap` (§4.1) — its implementation is not
under the source tree.  An association list keyed by `AppPeer.id`; `put` is
insert-or-replace (last write wins), `get` returns the entry or absent,
`remove` is idempotent deletion. -/
abbrev PeerMap := List AppPeer

/-- Spec §4.1 `Put`: insert or replace the entry for `status.peer_id`. -/
def PeerMap.put (m : PeerMap) (p : AppPeer) : PeerMap :=
  p :: List.filter (fun q => q.id ≠ p.id) m

/-- Spec §4.1 `Get`: the entry for the identifier, or absent. -/
def PeerMap.get (m : PeerMap) (id : String) : Option AppPeer :=
  List.find? (fun q => q.id = id) m

/-- Spec §4.1 `Remove`: delete the entry; idempotent. -/
def PeerMap.remove (m : PeerMap) (id : String) : PeerMap :=
  List.filter (fun q => q.id ≠ id) m

/-- Modelled from the spec: the StatusSubscriber filter (§4.3) of
`SyncAppPeerClient`, whose implementation is not under the source tree.  It
discards messages whose peer identifier is empty or equals this node's
identifier, and messages violating the invariant `gauge_height ≤ gauge_max`;
accepted messages are emitted on the status update channel. -/
def subscriberAccepts (selfId : String) (st : AppStatus) : Bool :=
  st.nodeId ≠ "" && st.nodeId ≠ selfId && st.guageHeight ≤ st.guageMax

/-- Translation of an accepted wire status into the `AppPeer` stored in
PeerMap (spec §4.3: translate to AppPeer). -/
def toAppPeer (st : AppStatus) : AppPeer :=
  { id := st.nodeId
    name := st.name
    guageHeight := st.guageHeight
    guageMax := st.guageMax
    relay := st.relay
    addr := st.addr }

/-- Program counter of the publisher goroutine spawned by `syncer.Start`.
After the initial `doPublishAppStatus()` the goroutine enters
`for \x7b <-ticker.C; doPublishAppStatus() \x7d`; the only code after the loop is
`ticker.Stop()`, which would correspond to `stopped` — the loop has no break,
return, or select on a done channel, so no transition targets `stopped`. -/
inductive PubPC where
  | loop
  | stopped
deriving Repr, DecidableEq

/-- Origin tag for a `PeerMap.Put` performed by the syncer: the fan-in loop
(`putToPeerMap` called from `startPeerStatusUpdateProcess`) or
`initializePeerMap`. -/
inductive PutSource where
  | fanIn
  | initializer
deriving Repr, DecidableEq

/-- Observable events driving the syncer orchestrator. -/
inductive Ev where
  | startCall
  | tick
  | overlayMsg (st : AppStatus)
  | disconnected (pid : String)
  | closeCall
deriving Repr, DecidableEq

/-- State of the syncer orchestrator and its spawned tasks. -/
structure SysState where
  started : Bool
  publisherPC : Option PubPC
  fanInRunning : Bool
  connTrackerRunning : Bool
  chClosed : Bool
  peerMap : PeerMap
  publishCount : Nat
  putLog : List PutSource
deriving DecidableEq

/-- State produced by `NewSyncer`: nothing started, empty `PeerMap`. -/
def initState : SysState :=
  { started := false
    publisherPC := none
    fanInRunning := false
    connTrackerRunning := false
    chClosed := false
    peerMap := []
    publishCount := 0
    putLog := [] }

/-- One orchestrator step, transcribed from `application/syncer.go`:

* `startCall` — `syncer.Start`: starts client and service, spawns the fan-in
  (`go s.startPeerStatusUpdateProcess()`) and the publisher goroutine, whose
  body runs `doPublishAppStatus()` once and then blocks on the ticker.  The
  line `go s.startPeerConnectionEventProcess()` is commented out in the
  source, so the connection tracker is never spawned.  A second `Start`
  returns an already-started error from the client (spec §4.5) and spawns
  nothing.
* `tick` — the ticker fires: the publisher loop body runs
  `doPublishAppStatus()` and loops; there is no exit branch.
* `overlayMsg st` — an inbound status: the subscriber filter decides whether
  it reaches the update channel; the fan-in consumes it and calls
  `putToPeerMap` (which does `s.peerMap.Put(status)`), with no further
  validation (the source carries a `TODO validate peer status`).
* `disconnected pid` — an overlay disconnect event: handled only by the
  connection-event process, which is never running, so it has no effect.
* `closeCall` — `syncer.Close`: runs `close(s.newStatusCh)` (service/client
  close bookkeeping is `syncerClose`); no goroutine watches this channel for
  cancellation. -/
def step (selfId : String) (s : SysState) : Ev → SysState
  | .startCall =>
    if s.started then s
    else
      { s with
        started := true
        fanInRunning := true
        connTrackerRunning := false
        publisherPC := some .loop
        publishCount := s.publishCount + 1 }
  | .tick =>
    match s.publisherPC with
    | some .loop => { s with publishCount := s.publishCount + 1 }
    | _ => s
  | .overlayMsg st =>
    if s.fanInRunning && subscriberAccepts selfId st then
      { s with
        peerMap := s.peerMap.put (toAppPeer st)
        putLog := s.putLog ++ [.fanIn] }
    else s
  | .disconnected pid =>
    if s.connTrackerRunning then { s with peerMap := s.peerMap.remove pid }
    else s
  | .closeCall => { s with chClosed := true }

/-- Run of the orchestrator over a sequence of events from `initState`. -/
def run (selfId : String) (evs : List Ev) : SysState :=
  List.foldl (step selfId) initState evs

/-- Method `syncer.initializePeerMap` from `application/syncer.go`: fetches
connected peer statuses and puts them all into the peer map.  Defined but
never called anywhere in the source. -/
def initializePeerMap (connectedStatuses : List AppPeer) (m : PeerMap) :
    PeerMap :=
  List.foldl PeerMap.put m connectedStatuses

/-- Nanosecond value of Go's `time.Second`. -/
def timeSecond : Nat := 1000000000

/-- Nanosecond value of Go's `time.Minute`. -/
def timeMinute : Nat := 60 * timeSecond

/-- Constant `DefaultAppStatusPublishDuration = 15 * 60 * time.Second` from
`application/syncer.go`. -/
def DefaultAppStatusPublishDuration : Nat := 15 * 60 * timeSecond

/-- Concrete well-formed inbound status used in witnesses/counterexamples. -/
def stGood : AppStatus :=
  { name := "app"
    startupTime := 1
    uptime := 2
    guageHeight := 0
    guageMax := 4
    relay := ""
    nodeId := "p1"
    addr := "a1"
    appOrigin := "o"
    modelHash := ""
    mac := ""
    memInfo := ""
    cpuInfo := ""
    averagePower := 0
    gpuInfo := ""
    version := "1" }

/-- Concrete inbound status violating `gauge_height ≤ gauge_max`. -/
def stBad : AppStatus :=
  { stGood with nodeId := "p2", guageHeight := 5, guageMax := 2 }

/-- Concrete endpoint application whose gauge fields are non-zero. -/
def app0 : EndpointApplication :=
  { name := "app"
    peerID := "self"
    uptime := 7
    startupTime := 3
    appOrigin := "o"
    mac := "m"
    cpuInfo := "c"
    gpuInfo := "g"
    memInfo := "r"
    modelHash := "h"
    averagePower := 1
    version := "1"
    guageHeight := 3
    guageMax := 7 }

end EmcNode

namespace EmcNode

/-! ## Helper lemmas -/

/-- Any property preserved by every `step` holds after any event fold. -/
theorem step_invariant {P : SysState → Prop} (selfId : String)
    (hstep : ∀ s e, P s → P (step selfId s e)) :
    ∀ (evs : List Ev) (s : SysState), P s → P (List.foldl (step selfId) s evs) := by
  intro evs
  induction evs with
  | nil => intro s h; exact h
  | cons e rest ih =>
    intro s h
    exact ih _ (hstep s e h)

/-- Membership after a `put` comes from the new entry or the old map. -/
theorem mem_put {m : PeerMap} {p q : AppPeer} (h : q ∈ PeerMap.put m p) :
    q = p ∨ q ∈ m := by
  rcases List.mem_cons.mp h with h' | h'
  · exact Or.inl h'
  · exact Or.inr (List.mem_filter.mp h').1

/-- Membership after a `remove` comes from the old map. -/
theorem mem_remove {m : PeerMap} {id : String} {q : AppPeer}
    (h : q ∈ PeerMap.remove m id) : q ∈ m :=
  (List.mem_filter.mp h).1

/-- The connection-event process is never running: `Start` leaves it
unspawned (`go s.startPeerConnectionEventProcess()` is commented out). -/
theorem connTracker_never_runs (selfId : String) (evs : List Ev) :
    (run selfId evs).connTrackerRunning = false := by
  refine step_invariant (P := fun s => s.connTrackerRunning = false)
    selfId ?_ evs initState rfl
  intro s e h
  cases e with
  | startCall =>
    by_cases hs : s.started <;> simp [step, hs, h]
  | tick =>
    rcases hpc : s.publisherPC with _ | pc
    · simp [step, hpc, h]
    · cases pc <;> simp [step, hpc, h]
  | overlayMsg st =>
    by_cases hc : s.fanInRunning && subscriberAccepts selfId st <;>
      simp [step, hc, h]
  | disconnected pid =>
    by_cases hc : s.connTrackerRunning
    · exact absurd hc (by simp [h])
    · simp [step, hc, h]
  | closeCall => simp [step, h]

/-- Every stored entry was accepted by the subscriber filter: its id is
neither empty nor this node's, and its gauge fields are ordered. -/
theorem peerMap_entries_filtered (selfId : String) (evs : List Ev) :
    ∀ p ∈ (run selfId evs).peerMap,
      p.id ≠ "" ∧ p.id ≠ selfId ∧ p.guageHeight ≤ p.guageMax := by
  refine step_invariant
    (P := fun s => ∀ p ∈ s.peerMap,
      p.id ≠ "" ∧ p.id ≠ selfId ∧ p.guageHeight ≤ p.guageMax)
    selfId ?_ evs initState (by intro p hp; cases hp)
  intro s e h
  cases e with
  | startCall =>
    by_cases hs : s.started <;> simpa [step, hs] using h
  | tick =>
    rcases hpc : s.publisherPC with _ | pc
    · simpa [step, hpc] using h
    · cases pc <;> simpa [step, hpc] using h
  | overlayMsg st =>
    by_cases hc : s.fanInRunning && subscriberAccepts selfId st
    · intro p hp
      simp only [step, hc, if_true] at hp
      rcases mem_put hp with hq | hq
      · subst hq
        have hacc : subscriberAccepts selfId st = true := by
          simp only [Bool.and_eq_true] at hc
          exact hc.2
        simp only [subscriberAccepts, Bool.and_eq_true, decide_eq_true_eq,
          bne_iff_ne, ne_eq] at hacc
        exact ⟨hacc.1.1, hacc.1.2, hacc.2⟩
      · exact h p hq
    · simpa [step, hc] using h
  | disconnected pid =>
    by_cases hc : s.connTrackerRunning
    · intro p hp
      simp only [step, hc, if_true] at hp
      exact h p (mem_remove hp)
    · simpa [step, hc] using h
  | closeCall => simpa [step] using h

/-- A ready publisher loop publishes exactly once per tick and stays in the
loop. -/
theorem ticks_publish (selfId : String) :
    ∀ (n : Nat) (s : SysState), s.publisherPC = some PubPC.loop →
      (List.foldl (step selfId) s (List.replicate n Ev.tick)).publishCount =
          s.publishCount + n ∧
        (List.foldl (step selfId) s (List.replicate n Ev.tick)).publisherPC =
          some PubPC.loop := by
  intro n
  induction n with
  | zero => intro s h; exact ⟨rfl, h⟩
  | succ n ih =>
    intro s h
    rw [List.replicate_succ, List.foldl_cons]
    have hstep : step selfId s Ev.tick =
        { s with publishCount := s.publishCount + 1 } := by
      simp [step, h]
    rw [hstep]
    have := ih { s with publishCount := s.publishCount + 1 } h
    refine ⟨?_, this.2⟩
    rw [this.1]
    show s.publishCount + 1 + n = s.publishCount + (n + 1)
    omega

end EmcNode

namespace EmcNode

/-! ## Claim theorems -/

/-- C9: `Application.Copy` copies exactly the ten listed fields and zeroes the
four hardware fields, for every input. -/
theorem application_copy_field_profile (a : Application) :
    (a.copy).name = a.name ∧ (a.copy).tag = a.tag ∧
    (a.copy).version = a.version ∧ (a.copy).peerID = a.peerID ∧
    (a.copy).startupTime = a.startupTime ∧ (a.copy).uptime = a.uptime ∧
    (a.copy).guageHeight = a.guageHeight ∧ (a.copy).guageMax = a.guageMax ∧
    (a.copy).ipAddr = a.ipAddr ∧ (a.copy).appOrigin = a.appOrigin ∧
    (a.copy).modelHash = "" ∧ (a.copy).mac = "" ∧
    (a.copy).memInfo = "" ∧ (a.copy).cpuInfo = "" := by
  repeat constructor

/-- C1: the publisher goroutine spawned by `Start` has no exit edge — its
program counter can only be unspawned or in the ticker loop, never at the
`ticker.Stop()` after the loop — and concretely, after `Start`, `Close` and
one further tick it is still looping and has published a second time. -/
theorem syncer_close_leaves_publisher_running :
    (∀ (selfId : String) (evs : List Ev),
      (run selfId evs).publisherPC = none ∨
        (run selfId evs).publisherPC = some PubPC.loop) ∧
    (run "n0" [Ev.startCall, Ev.closeCall, Ev.tick]).publisherPC =
        some PubPC.loop ∧
    (run "n0" [Ev.startCall, Ev.closeCall, Ev.tick]).publishCount = 2 := by
  refine ⟨?_, rfl, rfl⟩
  intro selfId evs
  refine step_invariant
    (P := fun s => s.publisherPC = none ∨ s.publisherPC = some PubPC.loop)
    selfId ?_ evs initState (Or.inl rfl)
  intro s e h
  cases e with
  | startCall =>
    by_cases hs : s.started
    · simpa [step, hs] using h
    · simp [step, hs]
  | tick =>
    rcases hpc : s.publisherPC with _ | pc
    · simp [step, hpc]
    · cases pc
      · simp [step, hpc]
      · rcases h with h | h <;> rw [hpc] at h <;> exact absurd h (by simp)
  | overlayMsg st =>
    by_cases hc : s.fanInRunning && subscriberAccepts selfId st <;>
      simpa [step, hc] using h
  | disconnected pid =>
    by_cases hc : s.connTrackerRunning <;> simpa [step, hc] using h
  | closeCall => simpa [step] using h

/-- C2 counterexample: peer `"p1"` is in PeerMap; a `disconnected("p1")`
event after `Start` leaves it there — `Get("p1")` is not absent. -/
theorem disconnect_eviction_cex :
    decide (PeerMap.get
      (run "n0" [Ev.startCall, Ev.overlayMsg stGood,
        Ev.disconnected "p1"]).peerMap "p1" = none) = false := by
  rfl

/-- C2 amended: after `Start` has returned, a `disconnected(P)` event has no
effect on the syncer state — `go s.startPeerConnectionEventProcess()` is
commented out, so the connection-event process never runs and
`removeFromPeerMap` is never invoked. -/
theorem disconnected_event_noop (selfId : String) (evs : List Ev)
    (pid : String) :
    run selfId (evs ++ [Ev.disconnected pid]) = run selfId evs := by
  have hct : (List.foldl (step selfId) initState evs).connTrackerRunning =
      false := connTracker_never_runs selfId evs
  show List.foldl (step selfId) initState (evs ++ [Ev.disconnected pid]) =
    run selfId evs
  rw [List.foldl_append, List.foldl_cons, List.foldl_nil]
  show step selfId (List.foldl (step selfId) initState evs)
      (Ev.disconnected pid) = run selfId evs
  simp [step, hct, run]

/-- C3 counterexample: an endpoint snapshot with `GuageHeight = 3` and
`GuageMax = 7` is published with both gauge fields zero. -/
theorem publish_gauge_cex :
    decide ((doPublishAppStatus [] app0).guageHeight = app0.guageHeight ∧
      (doPublishAppStatus [] app0).guageMax = app0.guageMax) = false := by
  rfl

/-- C3 amended: the published `AppStatus` takes name, node id, uptime,
startup time, addr, app origin, mac, cpu/gpu/mem info, model hash, average
power and version from the endpoint snapshot; `relay` is always the empty
string and `guage_height`/`guage_max` are always zero (absent from the
composite literal), regardless of the endpoint's gauge values. -/
theorem doPublishAppStatus_fields (hostAddrs : List String)
    (app : EndpointApplication) :
    (doPublishAppStatus hostAddrs app).name = app.name ∧
    (doPublishAppStatus hostAddrs app).nodeId = app.peerID ∧
    (doPublishAppStatus hostAddrs app).uptime = app.uptime ∧
    (doPublishAppStatus hostAddrs app).startupTime = app.startupTime ∧
    (doPublishAppStatus hostAddrs app).addr = hostAddrs.headD "" ∧
    (doPublishAppStatus hostAddrs app).appOrigin = app.appOrigin ∧
    (doPublishAppStatus hostAddrs app).mac = app.mac ∧
    (doPublishAppStatus hostAddrs app).cpuInfo = app.cpuInfo ∧
    (doPublishAppStatus hostAddrs app).gpuInfo = app.gpuInfo ∧
    (doPublishAppStatus hostAddrs app).memInfo = app.memInfo ∧
    (doPublishAppStatus hostAddrs app).modelHash = app.modelHash ∧
    (doPublishAppStatus hostAddrs app).averagePower = app.averagePower ∧
    (doPublishAppStatus hostAddrs app).version = app.version ∧
    (doPublishAppStatus hostAddrs app).relay = "" ∧
    (doPublishAppStatus hostAddrs app).guageHeight = 0 ∧
    (doPublishAppStatus hostAddrs app).guageMax = 0 := by
  cases hostAddrs <;> simp [doPublishAppStatus]

/-- C4 counterexample: when `syncAppPeerService.Close()` returns an error,
`syncer.Close` returns early and `syncAppPeerClient.Close()` is not called. -/
theorem syncerClose_error_cex :
    decide ((syncerClose (some "stream reset")).1.clientCloseCalled =
      true) = false := by
  rfl

/-- C4 amended: `Close` always closes the new-status signal and invokes the
service close, and it returns the service's error unchanged; the client close
runs exactly when the service close returned no error. -/
theorem syncerClose_behavior (e : Option String) :
    (syncerClose e).1.chClosed = true ∧
    (syncerClose e).1.serviceCloseCalled = true ∧
    (syncerClose e).2 = e ∧
    (syncerClose e).1.clientCloseCalled = e.isNone := by
  cases e <;> simp [syncerClose]

/-- C5 counterexample: once `Close` has closed `newStatusCh`, the select's
send case in `notifyNewStatusEvent` panics — it does not return normally. -/
theorem notify_after_close_cex :
    decide (notifyNewStatusEvent ChanState.closed ≠
      SendOutcome.panicked) = false := by
  rfl

/-- C5 amended: while the channel is open the pulse is non-blocking —
delivered to a ready receiver, otherwise dropped via `default` — and the
unbuffered channel (capacity 0) never holds an outstanding signal; but after
`Close` has closed the channel, the send case panics. -/
theorem notifyNewStatusEvent_outcomes :
    notifyNewStatusEvent (ChanState.opened true) = SendOutcome.delivered ∧
    notifyNewStatusEvent (ChanState.opened false) = SendOutcome.dropped ∧
    notifyNewStatusEvent ChanState.closed = SendOutcome.panicked ∧
    newStatusChCapacity = 0 :=
  ⟨rfl, rfl, rfl, rfl⟩

/-- C6: in every run, `Get` of this node's own identifier and of the empty
identifier return absent — the subscriber filter discards such messages
before they can reach `PeerMap.Put`. -/
theorem no_self_or_empty_peer_entries (selfId : String) (evs : List Ev) :
    PeerMap.get (run selfId evs).peerMap selfId = none ∧
    PeerMap.get (run selfId evs).peerMap "" = none := by
  have hinv := peerMap_entries_filtered selfId evs
  constructor
  · rw [PeerMap.get, List.find?_eq_none]
    intro q hq
    simp only [decide_eq_true_eq]
    exact (hinv q hq).2.1
  · rw [PeerMap.get, List.find?_eq_none]
    intro q hq
    simp only [decide_eq_true_eq]
    exact (hinv q hq).1

/-- C7: in every run, every PeerMap entry satisfies
`gauge_height ≤ gauge_max`, and a message rejected by the subscriber filter
leaves the syncer state unchanged (it never reaches `PeerMap.Put`, and
processing continues from the same state). -/
theorem peer_gauge_invariant (selfId : String) (evs : List Ev) :
    (∀ p ∈ (run selfId evs).peerMap, p.guageHeight ≤ p.guageMax) ∧
    (∀ (s : SysState) (st : AppStatus),
      subscriberAccepts selfId st = false →
        step selfId s (Ev.overlayMsg st) = s) := by
  constructor
  · intro p hp
    exact (peerMap_entries_filtered selfId evs p hp).2.2
  · intro s st hst
    simp [step, hst]

/-- C7 witness: a well-formed status is stored and satisfies the gauge
bound; a status with `gauge_height = 5 > 2 = gauge_max` is rejected and the
state is untouched. -/
theorem peer_gauge_invariant_witness :
    (toAppPeer stGood).guageHeight ≤ (toAppPeer stGood).guageMax ∧
    step "n0" initState (Ev.overlayMsg stBad) = initState :=
  ⟨(peer_gauge_invariant "n0" [Ev.startCall, Ev.overlayMsg stGood]).1
      (toAppPeer stGood) (by decide),
    (peer_gauge_invariant "n0" []).2 initState stBad (by decide)⟩

/-- C8: after a successful `Start`, the publisher publishes once immediately
and then exactly once per ticker tick, and the tick interval constant
`DefaultAppStatusPublishDuration` is 15 minutes. -/
theorem publish_cadence (selfId : String) (n : Nat) :
    (run selfId (Ev.startCall :: List.replicate n Ev.tick)).publishCount =
        n + 1 ∧
    DefaultAppStatusPublishDuration = 15 * timeMinute := by
  constructor
  · have h := ticks_publish selfId n (step selfId initState Ev.startCall) rfl
    show (List.foldl (step selfId) (step selfId initState Ev.startCall)
        (List.replicate n Ev.tick)).publishCount = n + 1
    rw [h.1]
    show 1 + n = n + 1
    omega
  · rfl

/-- C10: in every run, every `PeerMap.Put` performed by the syncer is tagged
as coming from the fan-in loop; no reachable transition invokes
`initializePeerMap`. -/
theorem all_puts_from_fan_in (selfId : String) (evs : List Ev) :
    List.all (run selfId evs).putLog
      (fun src => decide (src = PutSource.fanIn)) = true := by
  refine step_invariant
    (P := fun s => List.all s.putLog
      (fun src => decide (src = PutSource.fanIn)) = true)
    selfId ?_ evs initState rfl
  intro s e h
  cases e with
  | startCall =>
    by_cases hs : s.started <;> simp [step, hs, h]
  | tick =>
    rcases hpc : s.publisherPC with _ | pc
    · simp [step, hpc, h]
    · cases pc <;> simp [step, hpc, h]
  | overlayMsg st =>
    by_cases hc : s.fanInRunning && subscriberAccepts selfId st
    · simp [step, hc, List.all_append, h]
    · simp [step, hc, h]
  | disconnected pid =>
    by_cases hc : s.connTrackerRunning <;> simp [step, hc, h]
  | closeCall => simp [step, h]

end EmcNode
